import Mathlib

/-!
Shallow embedding of the `ia-download` repository (two Python scripts,
`cc-download.py` and `ia-download.py`) for verification.

Modelling conventions, shared by both scripts:
* File contents are `List Nat` (byte sequences).
* MD5 is abstracted: an incremental `hashlib.md5` digest is modelled by the
  exact list of bytes fed to it so far, and `hexdigest()` applies an
  arbitrary function `md5hex : List Nat → String` to that list.  Theorems
  are proved for every `md5hex`, so they state exactly the relationship the
  code establishes between streamed chunks and the digest of a whole file.
* Wall-clock durations (the `time` fields) are modelled as `0`; no claim
  depends on elapsed time values.
* Python exceptions are modelled by `Except`; a `try/except` boundary is a
  `match` on the `Except` value.
-/

namespace CC

/-- `MAX_ATTEMPTS` from `cc-download.py`. -/
def MAX_ATTEMPTS : Nat := 10

/-- The headers and body of one HTTP response, as `cc-download.py` sees it:
the `Content-Range` and `Content-Length` headers (absent or a string) and
the body as the successive chunks yielded by `fin.read(BUFSIZE)`. -/
structure CCResponse where
  contentRange : Option String
  contentLength : Option String
  body : List (List Nat)
deriving DecidableEq

/-- The error values that can be raised inside `download_warc`:
`ValueError('No content size')`, `ValueError` from `int(...)`,
`Exception('Downloaded too much: ...')`, `Exception('Downloaded not enough: ...')`.
The numeric/optional payloads are the values interpolated into the message. -/
inductive CCErr where
  | noContentSize : CCErr
  | invalidLiteral : String → CCErr
  | tooMuch : Nat → Int → CCErr
  | notEnough : Nat → Option Int → CCErr
deriving DecidableEq

/-- Model of Python `str.split(sep)` for a one-character separator
(splits on every occurrence, keeps empty fields, `''.split(sep) == ['']`). -/
def pySplitAux (sep : Char) : List Char → List Char → List String
  | [], acc => [String.mk acc.reverse]
  | c :: cs, acc =>
      if c = sep then String.mk acc.reverse :: pySplitAux sep cs []
      else pySplitAux sep cs (c :: acc)

/-- Python `s.split(sep)` for a one-character separator. -/
def pySplit (sep : Char) (s : String) : List String := pySplitAux sep s.data []

/-- Digit value of a character, if it is a decimal digit. -/
def digitVal (c : Char) : Option Nat :=
  if c.isDigit then some (c.toNat - 48) else none

/-- Accumulate decimal digits; `none` accumulator means no digit seen yet. -/
def parseDigits : List Char → Option Nat → Option Nat
  | [], acc => acc
  | c :: cs, acc =>
      match digitVal c, acc with
      | some d, some n => parseDigits cs (some (n * 10 + d))
      | some d, none => parseDigits cs (some d)
      | none, _ => none

/-- Model of Python `int(s)` on decimal literals: an optional minus sign
followed by at least one digit; anything else raises `ValueError`. -/
def pyIntParse (s : String) : Option Int :=
  match s.data with
  | '-' :: rest => (parseDigits rest none).map (fun n => -(n : Int))
  | l => (parseDigits l none).map (fun n => (n : Int))

/-- Rendering of a `CCErr` as `str(err)`, mirroring the Python messages. -/
def CCErr.str : CCErr → String
  | .noContentSize => "No content size"
  | .invalidLiteral s => "invalid literal for int with base 10: " ++ s
  | .tooMuch n m => "Downloaded too much: " ++ toString n ++ " > " ++ toString m
  | .notEnough n m =>
      "Downloaded not enough: " ++ toString n ++ " < " ++
        (match m with | some v => toString v | none => "None")

/-- Python `int(s)` on header strings: parse or raise `ValueError`. -/
def pyInt (s : String) : Except CCErr Int :=
  match pyIntParse s with
  | some n => Except.ok n
  | none => Except.error (CCErr.invalidLiteral s)

/-- The `Content-Length` fall-through tail of `get_content_length`:
return `int` of the `Content-Length` header if present, else raise
`ValueError('No content size')`. -/
def from_content_length (r : CCResponse) : Except CCErr Int :=
  match r.contentLength with
  | some size => pyInt size
  | none => Except.error CCErr.noContentSize

/-- `get_content_length` from `cc-download.py`:
split the `Content-Range` header value (default `''`) on `/`; if the split
has exactly two fields and the second is not `'*'`, return `int` of it;
otherwise fall through to `from_content_length`. -/
def get_content_length (r : CCResponse) : Except CCErr Int :=
  match pySplit '/' (r.contentRange.getD "") with
  | [_, total] => if total ≠ "*" then pyInt total else from_content_length r
  | _ => from_content_length r

/-- The chunk-reading loop `while True: chunk = fin.read(BUFSIZE); if len(chunk) == 0: break`:
consume chunks until the first empty chunk (or the end of the body). -/
def readChunks : List (List Nat) → List (List Nat)
  | [] => []
  | c :: cs => if c.length = 0 then [] else c :: readChunks cs

/-- The bytes actually received from one response body. -/
def received (r : CCResponse) : List Nat := (readChunks r.body).flatten

/-- One range request issued by `download_warc`: the attempt number (1-based,
the value of `attempt` after its increment) and the `Range: bytes=<offset>-`
start offset, which the code takes from `ftemp.tell()`. -/
structure CCRequest where
  attempt : Nat
  offset : Nat
deriving DecidableEq

/-- Outcome of the attempt loop of `download_warc`: either the rename branch
was reached (`done`, carrying the advertised size, the final temp-file bytes
and the final digest bytes), or an exception was raised (`fail`, carrying the
error and the temp-file bytes at that moment). -/
inductive WarcOutcome where
  | done : Int → List Nat → List Nat → WarcOutcome
  | fail : CCErr → List Nat → WarcOutcome
deriving DecidableEq

/-- The local state `download_warc` operates on: the temp file `.name`
(its byte content; absent is modelled as `[]`, matching `open(..., 'a+b')`
which creates it empty) and the destination file `name`. -/
structure CCState where
  tempContent : List Nat
  destExists : Bool
  destContent : List Nat
deriving DecidableEq

/-- The `while attempt < MAX_ATTEMPTS` loop of `download_warc`.
A server is a function from (attempt number, requested offset) to the
response it produces.  Arguments: remaining attempts (fuel), the current
value of `attempt`, the temp-file bytes, the digest bytes, and the current
value of the `size` variable (`None` before the first successful header
read).  Returns the list of requests issued, the final value of `size`,
and the loop outcome.

Per iteration, mirroring the source: increment `attempt`; issue a request at
offset `ftemp.tell()` (= temp length); read the total size from the headers
(an exception propagates, leaving `size` at its previous value); append the
received bytes to the temp file and digest; then compare `ftemp.tell()` with
`size`: strictly less continues to the next attempt, strictly greater raises
`Downloaded too much`, equality renames and returns.  Exhausting the loop
raises `Downloaded not enough`. -/
def warc_loop (server : Nat → Nat → CCResponse) :
    Nat → Nat → List Nat → List Nat → Option Int →
    List CCRequest × Option Int × WarcOutcome
  | 0, _, temp, _, szv =>
      ([], szv, WarcOutcome.fail (CCErr.notEnough temp.length szv) temp)
  | fuel + 1, attempt, temp, digest, szv =>
      let a := attempt + 1
      let offset := temp.length
      let req : CCRequest := ⟨a, offset⟩
      match get_content_length (server a offset) with
      | Except.error e => ([req], szv, WarcOutcome.fail e temp)
      | Except.ok size =>
          let recv := received (server a offset)
          let temp' := temp ++ recv
          let digest' := digest ++ recv
          if (temp'.length : Int) < size then
            let r := warc_loop server fuel a temp' digest' (some size)
            (req :: r.1, r.2.1, r.2.2)
          else if size < (temp'.length : Int) then
            ([req], some size, WarcOutcome.fail (CCErr.tooMuch temp'.length size) temp')
          else
            ([req], some size, WarcOutcome.done size temp' digest')

/-- `DownloadResult` from `cc-download.py`: `FileDownloaded(path, size, time, md5)`,
`FileExists(path)`, `DownloadError(path, size, time, error)`. -/
inductive DownloadResult where
  | fileDownloaded : String → Int → Nat → String → DownloadResult
  | fileExists : String → DownloadResult
  | downloadError : String → Option Int → Nat → CCErr → DownloadResult
deriving DecidableEq

/-- `download_warc` from `cc-download.py`.  If the destination exists, return
`FileExists` with no request.  Otherwise read the existing temp bytes into the
digest (`ftemp.seek(0)` plus the read loop), run the attempt loop, and either
rename the temp file to the destination and return `FileDownloaded`, or catch
the raised exception and return `DownloadError` (with the current `size`
variable), leaving the temp file in place.  Returns the requests issued, the
result, and the final local state. -/
def download_warc (md5hex : List Nat → String) (server : Nat → Nat → CCResponse)
    (st : CCState) (path : String) :
    List CCRequest × DownloadResult × CCState :=
  if st.destExists then ([], DownloadResult.fileExists path, st)
  else
    let digest0 := st.tempContent
    let r := warc_loop server MAX_ATTEMPTS 0 st.tempContent digest0 none
    match r.2.2 with
    | WarcOutcome.done size temp' digest' =>
        (r.1, DownloadResult.fileDownloaded path size 0 (md5hex digest'),
         { tempContent := [], destExists := true, destContent := temp' })
    | WarcOutcome.fail e temp' =>
        (r.1, DownloadResult.downloadError path r.2.1 0 e,
         { st with tempContent := temp' })

/-- `os.path.basename`, for paths joined with `/`. -/
def basename (p : String) : String := (pySplit '/' p).getLastD ""

/-- One output row of the `csv.DictWriter` in `cc-download.py`
(the `timestamp` column, a wall-clock value, is not modelled). -/
structure Row where
  item : String
  name : String
  path : Option String
  size : Option Int
  time : Option Nat
  md5 : Option String
  error : Option String
deriving DecidableEq

/-- The row written by the `__main__` loop of `cc-download.py` for one
result: `FileDownloaded` and `DownloadError` each produce one row,
`FileExists` produces none. -/
def cc_row : DownloadResult → Option Row
  | DownloadResult.fileDownloaded p size time md5 =>
      some { item := basename p, name := basename p, path := some p,
             size := some size, time := some time, md5 := some md5, error := none }
  | DownloadResult.fileExists _ => none
  | DownloadResult.downloadError p _ _ e =>
      some { item := basename p, name := basename p, path := none,
             size := none, time := none, md5 := none, error := some e.str }

/-- The `__main__` result loop of `cc-download.py`: write one row per
`FileDownloaded` or `DownloadError` result, none for `FileExists`; the
script never calls `sys.exit`, so the process exit code is 0. -/
def cc_main (results : List DownloadResult) : List Row × Nat :=
  (results.filterMap cc_row, 0)

end CC

namespace IA

/-- `File` from `ia-download.py`. -/
structure File where
  name : String
  url : String
  md5 : String
deriving DecidableEq

/-- `Download` from `ia-download.py`. -/
structure Download where
  path : String
  size : Nat
  md5 : String
  time : Nat
deriving DecidableEq

/-- The response of `session.get(file.url, stream=True, ...)` as
`download_file` consumes it: the ok flag, the reason phrase, and the body
chunks yielded by `response.iter_content`. -/
structure IAResponse where
  ok : Bool
  reason : String
  chunks : List (List Nat)
deriving DecidableEq

/-- The slice of the filesystem one `ia-download.py` task touches: its temp
file (`.name~pid`) and its destination file. -/
structure FS where
  tempExists : Bool
  tempContent : List Nat
  destExists : Bool
  destContent : List Nat
deriving DecidableEq

/-- `download_file` from `ia-download.py` (simple full-body mode).
If the response is not ok, raise `DownloadError(reason)` before touching the
temp file.  Otherwise open the temp file (`'wb'`: truncate/create), stream
every chunk into it while feeding the digest and summing the written sizes;
if the digest disagrees with `file.md5`, raise `DownloadError('md5 mismatch')`;
otherwise rename the temp file onto the destination and return `Download`.
The `finally` block unlinks the temp file whenever it still exists (i.e. on
every error after the open, but not after the rename). -/
def download_file (md5hex : List Nat → String) (resp : IAResponse)
    (file : File) (file_path : String) (fs : FS) :
    Except String Download × FS :=
  if resp.ok = false then (Except.error resp.reason, fs)
  else
    let body := resp.chunks.flatten
    let size := body.length
    let fs1 : FS := { fs with tempExists := true, tempContent := body }
    if md5hex body ≠ file.md5 then
      (Except.error "md5 mismatch",
       { fs1 with tempExists := false, tempContent := [] })
    else
      (Except.ok { path := file_path, size := size, md5 := md5hex body, time := 0 },
       { tempExists := false, tempContent := [],
         destExists := true, destContent := body })

/-- `compute_md5` from `ia-download.py`: digest the file content read in
chunks from the start — i.e. the digest of the whole content. -/
def compute_md5 (md5hex : List Nat → String) (content : List Nat) : String :=
  md5hex content

/-- The `check_md5` preamble of `worker_download_file`: if checking is on and
the destination exists but its recomputed digest disagrees with `file.md5`,
unlink the destination. -/
def check_existing (md5hex : List Nat → String) (file : File) (check_md5 : Bool)
    (fs : FS) : FS :=
  if check_md5 ∧ fs.destExists = true ∧ compute_md5 md5hex fs.destContent ≠ file.md5 then
    { fs with destExists := false, destContent := [] }
  else fs

/-- `worker_download_file` from `ia-download.py`: run the `check_md5`
preamble; if the destination (still) exists, report `None`; otherwise call
`download_file` inside `try/except`, converting any raised error into the
returned value.  Returns `(item, file, retval)` and the final filesystem
slice; `retval` is `none` for an already-present file, `some (Except.ok d)`
for a completed download, `some (Except.error e)` for a failure. -/
def worker_download_file (md5hex : List Nat → String) (resp : IAResponse)
    (item : String) (file : File) (dest_dir : String) (check_md5 : Bool)
    (fs : FS) :
    (String × File × Option (Except String Download)) × FS :=
  let file_path := dest_dir ++ "/" ++ item ++ "/" ++ file.name
  let fs1 := check_existing md5hex file check_md5 fs
  if fs1.destExists then ((item, file, none), fs1)
  else
    let r := download_file md5hex resp file file_path fs1
    ((item, file, some r.1), r.2)

/-- One result consumed by the `__main__` loop of `ia-download.py`:
`(item, file, retval)` as produced by `worker_download_file`. -/
abbrev TaskResult := String × File × Option (Except String Download)

/-- One output row of the `csv.DictWriter` in `ia-download.py`
(the `timestamp` column, a wall-clock value, is not modelled). -/
structure Row where
  item : String
  name : String
  path : Option String
  size : Option Nat
  time : Option Nat
  md5 : Option String
  error : Option String
deriving DecidableEq

/-- The row written for a completed download. -/
def row_of_download (item : String) (file : File) (d : Download) : Row :=
  { item := item, name := file.name, path := some d.path, size := some d.size,
    time := some d.time, md5 := some d.md5, error := none }

/-- The row written for a failed download (`error: str(retval)`). -/
def row_of_error (item : String) (file : File) (e : String) : Row :=
  { item := item, name := file.name, path := none, size := none,
    time := none, md5 := none, error := some e }

/-- The update of the `consecutive_errors` counter for one consumed result,
as the `__main__` loop of `ia-download.py` performs it: a `None` retval is
skipped (`continue`) and leaves the counter untouched; a `Download` retval
sets it to 0; an error retval increments it. -/
def consec_step (c : Nat) : Option (Except String Download) → Nat
  | none => c
  | some (Except.ok _) => 0
  | some (Except.error _) => c + 1

/-- The state accumulated by the `__main__` result loop of `ia-download.py`:
rows written so far, the `consecutive_errors` and `total_errors` counters,
and whether `RuntimeError('More than a 100 consecutive errors')` was raised. -/
structure MainState where
  rows : List Row
  consecutive_errors : Nat
  total_errors : Nat
  aborted : Bool
deriving DecidableEq

/-- The `__main__` result loop of `ia-download.py` over a sequence of task
results.  Per result: a `None` retval is skipped entirely (`continue`); a
`Download` retval writes its row and resets `consecutive_errors`; an error
retval writes its row and increments both counters; after writing a row the
loop raises (aborts) when `consecutive_errors > 100`. -/
def ia_loop : Nat → Nat → List Row → List TaskResult → MainState
  | consec, total, rows, [] =>
      { rows := rows, consecutive_errors := consec, total_errors := total,
        aborted := false }
  | consec, total, rows, (_, _, none) :: rest => ia_loop consec total rows rest
  | consec, total, rows, (item, file, some (Except.ok d)) :: rest =>
      let rows' := rows ++ [row_of_download item file d]
      let consec' := consec_step consec (some (Except.ok d))
      if 100 < consec' then
        { rows := rows', consecutive_errors := consec', total_errors := total,
          aborted := true }
      else ia_loop consec' total rows' rest
  | consec, total, rows, (item, file, some (Except.error e)) :: rest =>
      let rows' := rows ++ [row_of_error item file e]
      let consec' := consec_step consec (some (Except.error e))
      let total' := total + 1
      if 100 < consec' then
        { rows := rows', consecutive_errors := consec', total_errors := total',
          aborted := true }
      else ia_loop consec' total' rows' rest

/-- The whole run: the loop started with both counters at 0. -/
def ia_run (results : List TaskResult) : MainState := ia_loop 0 0 [] results

/-- `sys.exit(1 if total_errors > 0 else 0)`, reached only when the loop was
not aborted; an aborted run ends by an uncaught `RuntimeError` instead
(modelled as `none`). -/
def ia_exit (results : List TaskResult) : Option Nat :=
  let st := ia_run results
  if st.aborted then none
  else some (if 0 < st.total_errors then 1 else 0)

/-- A retval reporting a completed download. -/
def retOk : Option (Except String Download) → Bool
  | some (Except.ok _) => true
  | _ => false

/-- A retval reporting a failure. -/
def retErr : Option (Except String Download) → Bool
  | some (Except.error _) => true
  | _ => false

/-- A result that does not report a completed download (failure or skip). -/
def nonOk (r : TaskResult) : Bool := !(retOk r.2.2)

/-- Number of failure results in a list. -/
def errCount (l : List TaskResult) : Nat := l.countP (fun r => retErr r.2.2)

/-- Spec-side predicate, following the claim's words: some contiguous window
of the consumed results has length above the threshold and consists only of
`Failed` results. -/
def specConsecFailWindow (rs : List TaskResult) : Prop :=
  ∃ p s t, rs = p ++ (s ++ t) ∧ 100 < s.length ∧ s.all (fun r => retErr r.2.2) = true

/-- Code-side window predicate: a contiguous window with no `Completed`
result and more than 100 `Failed` results (`AlreadyPresent` results may
occur inside it). -/
def abortWindow (rs : List TaskResult) : Prop :=
  ∃ p s t, rs = p ++ (s ++ t) ∧ s.all nonOk = true ∧ 100 < errCount s

/-- A window without `Completed` results starting at the head, credited with
`c` failures already on the counter. -/
def abortWindowAt (c : Nat) (rs : List TaskResult) : Prop :=
  ∃ s t, rs = s ++ t ∧ s.all nonOk = true ∧ 100 < c + errCount s

/-- A window without `Completed` results starting right after some
`Completed` result. -/
def abortWindowAfterOk (rs : List TaskResult) : Prop :=
  ∃ p x s t, rs = p ++ x :: (s ++ t) ∧ retOk x.2.2 = true ∧
    s.all nonOk = true ∧ 100 < errCount s

/-- Concrete sample values for counterexamples and witnesses. -/
def sampleFile : File := { name := "n", url := "u", md5 := "m" }

/-- A sample failure result. -/
def sampleErr : TaskResult := ("i", sampleFile, some (Except.error "boom"))

/-- A sample completed result. -/
def sampleOk : TaskResult :=
  ("i", sampleFile, some (Except.ok { path := "p", size := 1, md5 := "m", time := 0 }))

/-- A sample already-present (skipped) result. -/
def sampleSkip : TaskResult := ("i", sampleFile, none)

/-- 50 failures, one already-present result, then 51 more failures: the
counter reaches 101 although no window of more than 100 results consists
only of failures. -/
def mixedResults : List TaskResult :=
  List.replicate 50 sampleErr ++ [sampleSkip] ++ List.replicate 51 sampleErr

/-- A digest function for concrete runs. -/
def wmh : List Nat → String := fun l => "h" ++ toString l.length

/-- A digest function that always disagrees with `"abc123"`. -/
def wmhDef : List Nat → String := fun _ => "def456"

/-- An ok response serving the two chunks `[1]` and `[2]`. -/
def wRespOk : IAResponse := { ok := true, reason := "", chunks := [[1], [2]] }

/-- A non-ok response. -/
def wRespBad : IAResponse := { ok := false, reason := "bad", chunks := [[1]] }

/-- A file whose expected digest matches `wmh` on two bytes. -/
def wFileH2 : File := { name := "n", url := "u", md5 := "h2" }

/-- A file whose expected digest is `"abc123"`. -/
def wFileAbc : File := { name := "n", url := "u", md5 := "abc123" }

/-- An empty filesystem slice. -/
def wFsEmpty : FS :=
  { tempExists := false, tempContent := [], destExists := false, destContent := [] }

end IA

namespace CC

/-- A digest function for concrete runs. -/
def wmh : List Nat → String := fun l => "h" ++ toString l.length

/-- A server advertising total 10 and serving three bytes per request. -/
def wServerOk : Nat → Nat → CCResponse :=
  fun _ o => { contentRange := some ("bytes " ++ toString o ++ "-9/10"),
               contentLength := none, body := [[1, 2, 3]] }

/-- A server advertising total 100 and serving an empty body every time. -/
def wServerTrunc : Nat → Nat → CCResponse :=
  fun _ _ => { contentRange := none, contentLength := some "100", body := [] }

/-- A server exposing neither a usable `Content-Range` nor a
`Content-Length`. -/
def wServerNoSize : Nat → Nat → CCResponse :=
  fun _ _ => { contentRange := none, contentLength := none, body := [[1]] }

/-- An empty local state. -/
def wStateEmpty : CCState := { tempContent := [], destExists := false, destContent := [] }

/-- A local state with a four-byte temp file already on disk. -/
def wStateResume : CCState :=
  { tempContent := [9, 9, 9, 9], destExists := false, destContent := [] }

end CC

/-- Helper: the length of `filterMap` counts the elements mapped to `some`. -/
theorem length_filterMap_eq_countP {α β : Type} (f : α → Option β) :
    ∀ l : List α, (l.filterMap f).length = l.countP (fun a => (f a).isSome) := by
  intro l
  induction l with
  | nil => rfl
  | cons a l ih =>
      rcases h : f a with _ | b <;>
        simp [List.filterMap_cons, h, List.countP_cons, ih]

namespace CC

/-- Helper: whatever the loop outcome, the request list is the same in every
branch of `download_warc`, so the requests of `download_warc` are `[]` when
the destination exists and the loop's requests otherwise. -/
theorem download_warc_reqs (md5hex : List Nat → String) (server : Nat → Nat → CCResponse)
    (st : CCState) (path : String) :
    (download_warc md5hex server st path).1 =
      if st.destExists then []
      else (warc_loop server MAX_ATTEMPTS 0 st.tempContent st.tempContent none).1 := by
  unfold download_warc
  split
  · rfl
  · cases h2 : (warc_loop server MAX_ATTEMPTS 0 st.tempContent st.tempContent none).2.2 <;>
      simp [h2]

/-- Helper: with the destination already present, `download_warc` returns
`FileExists` untouched. -/
theorem download_warc_exists (md5hex : List Nat → String)
    (server : Nat → Nat → CCResponse) (st : CCState) (path : String)
    (hd : st.destExists = true) :
    download_warc md5hex server st path = ([], DownloadResult.fileExists path, st) := by
  unfold download_warc
  rw [if_pos hd]

/-- Helper: the `done` branch of the attempt loop makes `download_warc`
rename the temp file and report `FileDownloaded`. -/
theorem download_warc_done (md5hex : List Nat → String)
    (server : Nat → Nat → CCResponse) (st : CCState) (path : String)
    (hd : st.destExists = false) {sz : Int} {tp dg : List Nat}
    (hout : (warc_loop server MAX_ATTEMPTS 0 st.tempContent st.tempContent none).2.2 =
      WarcOutcome.done sz tp dg) :
    download_warc md5hex server st path =
      ((warc_loop server MAX_ATTEMPTS 0 st.tempContent st.tempContent none).1,
       DownloadResult.fileDownloaded path sz 0 (md5hex dg),
       { tempContent := [], destExists := true, destContent := tp }) := by
  unfold download_warc
  rw [if_neg (by simp [hd])]
  simp [hout]

/-- Helper: the exception branch of the attempt loop makes `download_warc`
catch the error and report `DownloadError`, leaving the temp file. -/
theorem download_warc_fail (md5hex : List Nat → String)
    (server : Nat → Nat → CCResponse) (st : CCState) (path : String)
    (hd : st.destExists = false) {e : CCErr} {tf : List Nat}
    (hout : (warc_loop server MAX_ATTEMPTS 0 st.tempContent st.tempContent none).2.2 =
      WarcOutcome.fail e tf) :
    download_warc md5hex server st path =
      ((warc_loop server MAX_ATTEMPTS 0 st.tempContent st.tempContent none).1,
       DownloadResult.downloadError path
         (warc_loop server MAX_ATTEMPTS 0 st.tempContent st.tempContent none).2.1 0 e,
       { st with tempContent := tf }) := by
  unfold download_warc
  rw [if_neg (by simp [hd])]
  simp [hout]

/-- Helper: if the attempt loop reaches the rename branch, the digest bytes
track the temp bytes, the final temp length equals the returned size, and
that size was read from some response's headers. -/
theorem warc_loop_done (server : Nat → Nat → CCResponse) :
    ∀ (fuel attempt : Nat) (temp digest : List Nat) (szv : Option Int)
      (sz : Int) (temp' digest' : List Nat),
      (warc_loop server fuel attempt temp digest szv).2.2 = WarcOutcome.done sz temp' digest' →
      (digest = temp → digest' = temp') ∧ ((temp'.length : Int) = sz) ∧
      ∃ a o, get_content_length (server a o) = Except.ok sz := by
  intro fuel
  induction fuel with
  | zero =>
      intro attempt temp digest szv sz temp' digest' h
      simp [warc_loop] at h
  | succ n ih =>
      intro attempt temp digest szv sz temp' digest' h
      simp only [warc_loop] at h
      split at h
      · simp at h
      · rename_i size hE
        split at h
        · exact
            (ih (attempt + 1) (temp ++ received (server (attempt + 1) temp.length))
              (digest ++ received (server (attempt + 1) temp.length)) (some size)
              sz temp' digest' h).imp
              (fun hd hdt => hd (by rw [hdt])) (fun hrest => hrest)
        · split at h
          · simp at h
          · rename_i hlt hgt
            obtain ⟨hsz, htemp, hdig⟩ := WarcOutcome.done.inj h
            refine ⟨fun hdt => by rw [← hdig, ← htemp, hdt], ?_, ?_⟩
            · rw [← htemp, ← hsz]
              omega
            · exact ⟨attempt + 1, temp.length, by rw [hE, hsz]⟩

/-- Helper: every request the attempt loop issues has offset at least the
initial temp length, and successive offsets never decrease. -/
theorem warc_loop_offsets (server : Nat → Nat → CCResponse) :
    ∀ (fuel attempt : Nat) (temp digest : List Nat) (szv : Option Int),
      (∀ r ∈ (warc_loop server fuel attempt temp digest szv).1, temp.length ≤ r.offset) ∧
      List.Chain' (fun a b : CCRequest => a.offset ≤ b.offset)
        (warc_loop server fuel attempt temp digest szv).1 := by
  intro fuel
  induction fuel with
  | zero =>
      intro attempt temp digest szv
      simp [warc_loop]
  | succ n ih =>
      intro attempt temp digest szv
      simp only [warc_loop]
      split
      · simp
      · rename_i size hE
        split
        · have hrec := ih (attempt + 1) (temp ++ received (server (attempt + 1) temp.length))
            (digest ++ received (server (attempt + 1) temp.length)) (some size)
          constructor
          · intro r hr
            rcases List.mem_cons.mp hr with hhd | htl
            · rw [hhd]
            · exact le_trans (by simp) (hrec.1 r htl)
          · refine List.chain'_cons'.mpr ⟨?_, hrec.2⟩
            intro b hb
            exact le_trans (by simp) (hrec.1 b (List.mem_of_mem_head? hb))
        · split <;> simp

/-- Helper: against a server that always advertises total `TOT` and always
ends the body before reaching it, the attempt loop issues exactly `fuel`
requests and ends in the `Downloaded not enough` error, with the `size`
variable holding `TOT` (or its previous value when no attempt was made). -/
theorem warc_loop_truncated (server : Nat → Nat → CCResponse) (TOT : Int)
    (h1 : ∀ a o, get_content_length (server a o) = Except.ok TOT)
    (h2 : ∀ (a o : Nat), ((o : Int) < TOT) →
        (((o + (received (server a o)).length : Nat)) : Int) < TOT) :
    ∀ (fuel attempt : Nat) (temp digest : List Nat) (szv : Option Int),
      (temp.length : Int) < TOT →
      ∃ tf, (tf.length : Int) < TOT ∧
        (warc_loop server fuel attempt temp digest szv).1.length = fuel ∧
        (warc_loop server fuel attempt temp digest szv).2.1 =
          (if fuel = 0 then szv else some TOT) ∧
        (warc_loop server fuel attempt temp digest szv).2.2 =
          WarcOutcome.fail (CCErr.notEnough tf.length (if fuel = 0 then szv else some TOT)) tf := by
  intro fuel
  induction fuel with
  | zero =>
      intro attempt temp digest szv hlt
      exact ⟨temp, hlt, by simp [warc_loop]⟩
  | succ n ih =>
      intro attempt temp digest szv hlt
      have hr : ((temp ++ received (server (attempt + 1) temp.length)).length : Int) < TOT := by
        have := h2 (attempt + 1) temp.length hlt
        simpa using this
      obtain ⟨tf, htf, hlen, hsv, hout⟩ :=
        ih (attempt + 1) (temp ++ received (server (attempt + 1) temp.length))
          (digest ++ received (server (attempt + 1) temp.length)) (some TOT) hr
      refine ⟨tf, htf, ?_, ?_, ?_⟩ <;>
        · simp only [warc_loop, h1 (attempt + 1) temp.length]
          rw [if_pos hr]
          rcases Nat.eq_zero_or_pos n with hn | hn <;>
            simp_all
end CC

namespace IA

theorem retOk_eq_false_of_retErr {v : Option (Except String Download)}
    (h : retErr v = true) : retOk v = false := by
  rcases v with _ | v
  · simp [retErr] at h
  · cases v with
    | error e => rfl
    | ok d => simp [retErr] at h

theorem abortWindowAt_nil {c : Nat} : abortWindowAt c [] ↔ 100 < c := by
  constructor
  · rintro ⟨s, t, heq, -, hcnt⟩
    obtain ⟨hs, -⟩ := List.append_eq_nil.mp heq.symm
    subst hs
    simpa [errCount] using hcnt
  · intro h
    exact ⟨[], [], rfl, rfl, by simpa [errCount] using h⟩

theorem abortWindowAfterOk_nil : ¬ abortWindowAfterOk [] := by
  rintro ⟨p, x, s, t, heq, -, -, -⟩
  exact List.not_mem_nil x (heq ▸ List.mem_append_right p (List.mem_cons_self x _))

theorem abortWindowAt_cons {c : Nat} {x : TaskResult} {rs : List TaskResult} :
    abortWindowAt c (x :: rs) ↔
      100 < c ∨ (nonOk x = true ∧
        abortWindowAt (c + (if retErr x.2.2 then 1 else 0)) rs) := by
  constructor
  · rintro ⟨s, t, heq, hall, hcnt⟩
    rcases s with _ | ⟨y, s'⟩
    · left
      simpa [errCount] using hcnt
    · obtain ⟨hy, hrs⟩ := List.cons.inj heq
      subst hy
      right
      rw [List.all_cons, Bool.and_eq_true] at hall
      refine ⟨hall.1, s', t, hrs, hall.2, ?_⟩
      have : errCount (x :: s') = (if retErr x.2.2 then 1 else 0) + errCount s' := by
        simp [errCount, List.countP_cons]
        split <;> omega
      omega
  · rintro (h | ⟨hx, s, t, hrs, hall, hcnt⟩)
    · exact ⟨[], x :: rs, rfl, rfl, by simpa [errCount] using h⟩
    · refine ⟨x :: s, t, by simp [hrs], by simp [hx, hall], ?_⟩
      have : errCount (x :: s) = (if retErr x.2.2 then 1 else 0) + errCount s := by
        simp [errCount, List.countP_cons]
        split <;> omega
      omega

theorem abortWindowAfterOk_cons {x : TaskResult} {rs : List TaskResult} :
    abortWindowAfterOk (x :: rs) ↔
      (retOk x.2.2 = true ∧ abortWindowAt 0 rs) ∨ abortWindowAfterOk rs := by
  constructor
  · rintro ⟨p, y, s, t, heq, hok, hall, hcnt⟩
    rcases p with _ | ⟨z, p'⟩
    · obtain ⟨hy, hrs⟩ := List.cons.inj heq
      subst hy
      exact Or.inl ⟨hok, s, t, hrs, hall, by omega⟩
    · obtain ⟨hz, hrs⟩ := List.cons.inj heq
      exact Or.inr ⟨p', y, s, t, hrs, hok, hall, hcnt⟩
  · rintro (⟨hok, s, t, hrs, hall, hcnt⟩ | ⟨p, y, s, t, hrs, hok, hall, hcnt⟩)
    · exact ⟨[], x, s, t, by simp [hrs], hok, hall, by omega⟩
    · exact ⟨x :: p, y, s, t, by simp [hrs], hok, hall, hcnt⟩

theorem errCount_cons (x : TaskResult) (l : List TaskResult) :
    errCount (x :: l) = (if retErr x.2.2 then 1 else 0) + errCount l := by
  rcases h : retErr x.2.2 <;> simp [errCount, List.countP_cons, h]
  omega

/-- Helper: the result loop aborts exactly when the input starts with a
`Completed`-free block whose failures, together with the carried-in counter,
pass 100, or contains such a block (of more than 100 failures) right after
some `Completed` result. -/
theorem ia_loop_abort_iff :
    ∀ (rs : List TaskResult) (c total : Nat) (rows : List Row), c ≤ 100 →
      ((ia_loop c total rows rs).aborted = true ↔
        abortWindowAt c rs ∨ abortWindowAfterOk rs) := by
  intro rs
  induction rs with
  | nil =>
      intro c total rows hc
      have h100 : ¬ (100 < c) := by omega
      simp [ia_loop, abortWindowAt_nil, abortWindowAfterOk_nil, h100]
  | cons r rest ih =>
      obtain ⟨i, f, v⟩ := r
      intro c total rows hc
      have h100 : ¬ (100 < c) := by omega
      rcases v with _ | (e | d)
      · rw [show ia_loop c total rows ((i, f, none) :: rest) = ia_loop c total rows rest from rfl]
        rw [ih c total rows hc]
        simp [abortWindowAt_cons, abortWindowAfterOk_cons, nonOk, retOk, retErr, h100]
      · by_cases h101 : 100 < c + 1
        · simp only [ia_loop, consec_step]
          rw [if_pos h101]
          refine iff_of_true rfl (Or.inl (abortWindowAt_cons.mpr (Or.inr ⟨rfl, ?_⟩)))
          refine ⟨[], rest, rfl, rfl, ?_⟩
          simp [retErr, errCount]
          omega
        · simp only [ia_loop, consec_step]
          rw [if_neg h101]
          rw [ih (c + 1) (total + 1) (rows ++ [row_of_error i f e]) (by omega)]
          simp [abortWindowAt_cons, abortWindowAfterOk_cons, nonOk, retOk, retErr, h100]
      · simp only [ia_loop, consec_step]
        rw [if_neg (by omega : ¬ ((100:Nat) < 0))]
        rw [ih 0 total (rows ++ [row_of_download i f d]) (by omega)]
        simp [abortWindowAt_cons, abortWindowAfterOk_cons, nonOk, retOk, retErr, h100]

/-- Helper: a `Completed`-free window of more than 100 failures anywhere is
the same as such a window at the start or right after a `Completed` result
(extend the window leftward until an ok or the start is hit). -/
theorem abortWindow_split (rs : List TaskResult) :
    ∀ (p : List TaskResult),
      (∃ s t, rs = p ++ (s ++ t) ∧ s.all nonOk = true ∧ 100 < errCount s) →
      abortWindowAt 0 rs ∨ abortWindowAfterOk rs := by
  intro p
  induction p using List.reverseRecOn with
  | nil =>
      rintro ⟨s, t, heq, hall, hcnt⟩
      exact Or.inl ⟨s, t, by simpa using heq, hall, by omega⟩
  | append_singleton p' x ih =>
      rintro ⟨s, t, heq, hall, hcnt⟩
      by_cases hx : retOk x.2.2 = true
      · exact Or.inr ⟨p', x, s, t, by rw [heq]; simp, hx, hall, hcnt⟩
      · have hx' : retOk x.2.2 = false := by
          revert hx; cases retOk x.2.2 <;> simp
        apply ih
        refine ⟨x :: s, t, by rw [heq]; simp, ?_, ?_⟩
        · simp [List.all_cons, hall, nonOk, hx']
        · rw [errCount_cons]
          omega

theorem abortWindow_iff (rs : List TaskResult) :
    abortWindow rs ↔ abortWindowAt 0 rs ∨ abortWindowAfterOk rs := by
  constructor
  · rintro ⟨p, s, t, heq, hall, hcnt⟩
    exact abortWindow_split rs p ⟨s, t, heq, hall, hcnt⟩
  · rintro (⟨s, t, heq, hall, hcnt⟩ | ⟨p, x, s, t, heq, hok, hall, hcnt⟩)
    · exact ⟨[], s, t, by simpa using heq, hall, by omega⟩
    · exact ⟨p ++ [x], s, t, by rw [heq]; simp, hall, hcnt⟩

/-- Helper: when the loop does not abort, the number of rows written is the
number of non-skipped results and `total_errors` counts the failures. -/
theorem ia_loop_not_aborted :
    ∀ (rs : List TaskResult) (c total : Nat) (rows : List Row),
      (ia_loop c total rows rs).aborted = false →
      (ia_loop c total rows rs).rows.length =
        rows.length + rs.countP (fun r => r.2.2.isSome) ∧
      (ia_loop c total rows rs).total_errors = total + errCount rs := by
  intro rs
  induction rs with
  | nil =>
      intro c total rows h
      simp [ia_loop, errCount]
  | cons r rest ih =>
      obtain ⟨i, f, v⟩ := r
      intro c total rows h
      rcases v with _ | (e | d)
      · rw [show ia_loop c total rows ((i, f, none) :: rest) = ia_loop c total rows rest from rfl] at h ⊢
        obtain ⟨h1, h2⟩ := ih c total rows h
        refine ⟨by rw [h1]; simp [List.countP_cons], ?_⟩
        rw [h2, errCount_cons]
        simp [retErr]
      · by_cases h101 : 100 < c + 1
        · simp only [ia_loop, consec_step] at h
          rw [if_pos h101] at h
          simp at h
        · simp only [ia_loop, consec_step] at h ⊢
          rw [if_neg h101] at h ⊢
          obtain ⟨h1, h2⟩ := ih (c + 1) (total + 1) (rows ++ [row_of_error i f e]) h
          refine ⟨?_, ?_⟩
          · rw [h1]
            simp [List.countP_cons]
            omega
          · rw [h2, errCount_cons]
            simp [retErr]
            omega
      · simp only [ia_loop, consec_step] at h ⊢
        rw [if_neg (by omega : ¬ ((100:Nat) < 0))] at h ⊢
        obtain ⟨h1, h2⟩ := ih 0 total (rows ++ [row_of_download i f d]) h
        refine ⟨?_, ?_⟩
        · rw [h1]
          simp [List.countP_cons]
          omega
        · rw [h2, errCount_cons]
          simp [retErr]

end IA

namespace IA

/-- Helper: a non-ok response makes `download_file` raise before touching
the temp file. -/
theorem download_file_not_ok (md5hex : List Nat → String) (resp : IAResponse)
    (file : File) (fp : String) (fs : FS) (h : resp.ok = false) :
    download_file md5hex resp file fp fs = (Except.error resp.reason, fs) := by
  unfold download_file
  rw [if_pos h]

/-- Helper: an ok response whose digest disagrees with the expected checksum
makes `download_file` raise the mismatch error and delete the temp file. -/
theorem download_file_mismatch (md5hex : List Nat → String) (resp : IAResponse)
    (file : File) (fp : String) (fs : FS) (h1 : resp.ok = true)
    (h2 : md5hex resp.chunks.flatten ≠ file.md5) :
    download_file md5hex resp file fp fs =
      (Except.error "md5 mismatch",
       { tempExists := false, tempContent := [],
         destExists := fs.destExists, destContent := fs.destContent }) := by
  simp only [download_file]
  rw [if_neg (by simp [h1]), if_pos h2]

/-- Helper: an ok response whose digest agrees with the expected checksum
makes `download_file` rename the temp file and report `Download`. -/
theorem download_file_ok (md5hex : List Nat → String) (resp : IAResponse)
    (file : File) (fp : String) (fs : FS) (h1 : resp.ok = true)
    (h2 : md5hex resp.chunks.flatten = file.md5) :
    download_file md5hex resp file fp fs =
      (Except.ok { path := fp, size := resp.chunks.flatten.length,
                   md5 := md5hex resp.chunks.flatten, time := 0 },
       { tempExists := false, tempContent := [], destExists := true,
         destContent := resp.chunks.flatten }) := by
  simp only [download_file]
  rw [if_neg (by simp [h1]), if_neg (not_not_intro h2)]

end IA

namespace CC

/-- Helper: `from_content_length` succeeds on a present, parseable
`Content-Length`. -/
theorem from_content_length_ok (r : CCResponse) (cl : String) (m : Int)
    (hcl : r.contentLength = some cl) (hm : pyIntParse cl = some m) :
    from_content_length r = Except.ok m := by
  simp [from_content_length, hcl, pyInt, hm]

/-- Helper: `from_content_length` raises exactly when `Content-Length` is
absent or unparseable. -/
theorem from_content_length_error_iff (r : CCResponse) :
    (∃ e, from_content_length r = Except.error e) ↔
      (r.contentLength = none ∨
        ∃ cl, r.contentLength = some cl ∧ pyIntParse cl = none) := by
  rcases hcl : r.contentLength with _ | cl
  · simp [from_content_length, hcl]
  · rcases hp : pyIntParse cl with _ | n <;>
      simp [from_content_length, hcl, pyInt, hp]

end CC

/-- Claim C1: for every `Completed` result (`FileDownloaded` in
`cc-download.py`, `Download` in `ia-download.py`), the reported size equals
the server-advertised total (in resumable mode, the total read from the
headers; in simple mode, the length of the body the server serves), the
destination file has exactly that byte length, and the reported checksum is
the digest of the destination file's full content, for every digest
function. -/
theorem C1_completed_integrity :
    (∀ (md5hex : List Nat → String) (server : Nat → Nat → CC.CCResponse)
       (st : CC.CCState) (path p : String) (sz : Int) (t : Nat) (hx : String),
       (CC.download_warc md5hex server st path).2.1 =
          CC.DownloadResult.fileDownloaded p sz t hx →
       (CC.download_warc md5hex server st path).2.2.destExists = true ∧
       (((CC.download_warc md5hex server st path).2.2.destContent.length : Int) = sz) ∧
       hx = md5hex (CC.download_warc md5hex server st path).2.2.destContent ∧
       ∃ a o, CC.get_content_length (server a o) = Except.ok sz) ∧
    (∀ (md5hex : List Nat → String) (resp : IA.IAResponse) (file : IA.File)
       (fp : String) (fs : IA.FS) (d : IA.Download),
       (IA.download_file md5hex resp file fp fs).1 = Except.ok d →
       (IA.download_file md5hex resp file fp fs).2.destExists = true ∧
       (IA.download_file md5hex resp file fp fs).2.destContent.length = d.size ∧
       d.md5 = md5hex (IA.download_file md5hex resp file fp fs).2.destContent ∧
       d.size = resp.chunks.flatten.length) := by
  constructor
  · intro md5hex server st path p sz t hx hres
    cases hde : st.destExists with
    | true =>
        rw [CC.download_warc_exists md5hex server st path hde] at hres
        simp at hres
    | false =>
        cases hout : (CC.warc_loop server CC.MAX_ATTEMPTS 0
            st.tempContent st.tempContent none).2.2 with
        | fail e tf =>
            rw [CC.download_warc_fail md5hex server st path hde hout] at hres
            simp at hres
        | done size tp dg =>
            rw [CC.download_warc_done md5hex server st path hde hout] at hres ⊢
            obtain ⟨hp, hsz, ht, hmd⟩ := CC.DownloadResult.fileDownloaded.inj hres
            obtain ⟨hdg, hlen, hex⟩ :=
              CC.warc_loop_done server CC.MAX_ATTEMPTS 0 st.tempContent st.tempContent
                none size tp dg hout
            refine ⟨rfl, ?_, ?_, ?_⟩
            · rw [← hsz]
              exact hlen
            · rw [← hmd, hdg rfl]
            · rw [← hsz]
              exact hex
  · intro md5hex resp file fp fs d hres
    cases hok : resp.ok with
    | false =>
        rw [IA.download_file_not_ok md5hex resp file fp fs hok] at hres
        simp at hres
    | true =>
        by_cases hmd : md5hex resp.chunks.flatten = file.md5
        · rw [IA.download_file_ok md5hex resp file fp fs hok hmd] at hres ⊢
          have hd := (Except.ok.inj hres).symm
          subst hd
          exact ⟨rfl, rfl, rfl, rfl⟩
        · rw [IA.download_file_mismatch md5hex resp file fp fs hok hmd] at hres
          simp at hres

/-- Witness for C1: a resumed download (4 bytes on disk, 3 bytes per
response, total 10) and a simple-mode download of two chunks, both
completed, instantiating every hypothesis of `C1_completed_integrity`. -/
theorem C1_completed_integrity_witness :
    ((CC.download_warc CC.wmh CC.wServerOk CC.wStateResume "a/b.warc").2.2.destExists = true ∧
     (((CC.download_warc CC.wmh CC.wServerOk CC.wStateResume "a/b.warc").2.2.destContent.length : Int) = 10) ∧
     "h10" = CC.wmh (CC.download_warc CC.wmh CC.wServerOk CC.wStateResume "a/b.warc").2.2.destContent ∧
     (∃ a o, CC.get_content_length (CC.wServerOk a o) = Except.ok 10)) ∧
    ((IA.download_file IA.wmh IA.wRespOk IA.wFileH2 "d/n" IA.wFsEmpty).2.destExists = true ∧
     (IA.download_file IA.wmh IA.wRespOk IA.wFileH2 "d/n" IA.wFsEmpty).2.destContent.length =
       (IA.Download.mk "d/n" 2 "h2" 0).size ∧
     (IA.Download.mk "d/n" 2 "h2" 0).md5 =
       IA.wmh (IA.download_file IA.wmh IA.wRespOk IA.wFileH2 "d/n" IA.wFsEmpty).2.destContent ∧
     (IA.Download.mk "d/n" 2 "h2" 0).size = IA.wRespOk.chunks.flatten.length) := by
  constructor
  · exact C1_completed_integrity.1 CC.wmh CC.wServerOk CC.wStateResume "a/b.warc"
      "a/b.warc" 10 0 "h10" rfl
  · exact C1_completed_integrity.2 IA.wmh IA.wRespOk IA.wFileH2 "d/n" IA.wFsEmpty
      (IA.Download.mk "d/n" 2 "h2" 0) rfl

/-- Claim C5: in resumable mode, against a server that always advertises the
same total and always ends each attempt's body before reaching it, the task
performs exactly `MAX_ATTEMPTS` (= 10) attempts and its single result is the
exhausted-retries `DownloadError` (`Downloaded not enough`). -/
theorem C5_exhausts_attempts (md5hex : List Nat → String)
    (server : Nat → Nat → CC.CCResponse) (TOT : Int) (st : CC.CCState) (path : String)
    (h1 : ∀ a o, CC.get_content_length (server a o) = Except.ok TOT)
    (h2 : ∀ (a o : Nat), ((o : Int) < TOT) →
        (((o + (CC.received (server a o)).length : Nat)) : Int) < TOT)
    (h3 : st.destExists = false)
    (h4 : ((st.tempContent.length : Int) < TOT)) :
    (CC.download_warc md5hex server st path).1.length = CC.MAX_ATTEMPTS ∧
    ∃ n : Nat, (CC.download_warc md5hex server st path).2.1 =
      CC.DownloadResult.downloadError path (some TOT) 0 (CC.CCErr.notEnough n (some TOT)) := by
  obtain ⟨tf, htf, hlen, hsv, hout⟩ :=
    CC.warc_loop_truncated server TOT h1 h2 CC.MAX_ATTEMPTS 0 st.tempContent st.tempContent none h4
  rw [show (if CC.MAX_ATTEMPTS = 0 then (none : Option Int) else some TOT) = some TOT from rfl]
    at hsv hout
  constructor
  · rw [CC.download_warc_reqs, if_neg (by simp [h3])]
    exact hlen
  · refine ⟨tf.length, ?_⟩
    rw [CC.download_warc_fail md5hex server st path h3 hout]
    simp [hsv]

/-- Witness for C5: a server that advertises 100 bytes and serves an empty
body on every attempt; ten requests are made and the single result is the
`Downloaded not enough` error. -/
theorem C5_exhausts_attempts_witness :
    (CC.download_warc CC.wmh CC.wServerTrunc CC.wStateEmpty "p").1.length = CC.MAX_ATTEMPTS ∧
    ∃ n : Nat, (CC.download_warc CC.wmh CC.wServerTrunc CC.wStateEmpty "p").2.1 =
      CC.DownloadResult.downloadError "p" (some 100) 0 (CC.CCErr.notEnough n (some 100)) := by
  exact C5_exhausts_attempts CC.wmh CC.wServerTrunc 100 CC.wStateEmpty "p"
    (fun a o => rfl)
    (fun a o h => by simpa [CC.received, CC.wServerTrunc, CC.readChunks] using h)
    rfl (by norm_num [CC.wStateEmpty])

/-- Claim C6: in resumable mode every range request starts at the current
temp-file length, so no request ever starts below the initial temp length
and successive request offsets never decrease. -/
theorem C6_offsets_monotone (md5hex : List Nat → String)
    (server : Nat → Nat → CC.CCResponse) (st : CC.CCState) (path : String) :
    List.Chain' (fun a b : CC.CCRequest => a.offset ≤ b.offset)
      (CC.download_warc md5hex server st path).1 ∧
    ((CC.download_warc md5hex server st path).1.all
      (fun r => decide (st.tempContent.length ≤ r.offset))) = true := by
  rw [CC.download_warc_reqs]
  cases h : st.destExists with
  | true => simp
  | false =>
      rw [if_neg (show ¬(false = true) by simp)]
      have hoff := CC.warc_loop_offsets server CC.MAX_ATTEMPTS 0 st.tempContent st.tempContent none
      refine ⟨hoff.2, ?_⟩
      rw [List.all_eq_true]
      intro r hr
      simpa using hoff.1 r hr

/-- Claim C7: in simple full-body mode, a computed checksum differing from
the expected one makes the transfer raise the checksum-mismatch error, the
temp file is deleted, and no file exists at the destination path afterwards
(the destination was absent beforehand, as the worker guarantees). -/
theorem C7_checksum_mismatch_cleanup (md5hex : List Nat → String)
    (resp : IA.IAResponse) (file : IA.File) (fp : String) (fs : IA.FS)
    (h1 : resp.ok = true) (h2 : md5hex resp.chunks.flatten ≠ file.md5)
    (h3 : fs.destExists = false) :
    (IA.download_file md5hex resp file fp fs).1 = Except.error "md5 mismatch" ∧
    (IA.download_file md5hex resp file fp fs).2.tempExists = false ∧
    (IA.download_file md5hex resp file fp fs).2.destExists = false := by
  rw [IA.download_file_mismatch md5hex resp file fp fs h1 h2]
  exact ⟨rfl, rfl, h3⟩

/-- Witness for C7: expected checksum `"abc123"`, computed checksum
`"def456"`. -/
theorem C7_checksum_mismatch_cleanup_witness :
    (IA.download_file IA.wmhDef IA.wRespOk IA.wFileAbc "d/n" IA.wFsEmpty).1 =
      Except.error "md5 mismatch" ∧
    (IA.download_file IA.wmhDef IA.wRespOk IA.wFileAbc "d/n" IA.wFsEmpty).2.tempExists = false ∧
    (IA.download_file IA.wmhDef IA.wRespOk IA.wFileAbc "d/n" IA.wFsEmpty).2.destExists = false := by
  exact C7_checksum_mismatch_cleanup IA.wmhDef IA.wRespOk IA.wFileAbc "d/n" IA.wFsEmpty
    rfl (by decide) rfl

/-- Claim C8: every per-task error is caught at the worker boundary and
converted into a `Failed` result: in `cc-download.py`, any exception in the
attempt loop becomes a returned `DownloadError`; in `ia-download.py`, any
error raised by `download_file` becomes the `retval` of the returned triple.
Neither propagates out of the worker function. -/
theorem C8_worker_boundary :
    (∀ (md5hex : List Nat → String) (server : Nat → Nat → CC.CCResponse)
       (st : CC.CCState) (path : String) (e : CC.CCErr) (tf : List Nat),
       st.destExists = false →
       (CC.warc_loop server CC.MAX_ATTEMPTS 0 st.tempContent st.tempContent none).2.2 =
         CC.WarcOutcome.fail e tf →
       (CC.download_warc md5hex server st path).2.1 =
         CC.DownloadResult.downloadError path
           (CC.warc_loop server CC.MAX_ATTEMPTS 0 st.tempContent st.tempContent none).2.1 0 e) ∧
    (∀ (md5hex : List Nat → String) (resp : IA.IAResponse) (item : String)
       (file : IA.File) (dest_dir : String) (check_md5 : Bool) (fs : IA.FS) (e : String),
       (IA.check_existing md5hex file check_md5 fs).destExists = false →
       (IA.download_file md5hex resp file (dest_dir ++ "/" ++ item ++ "/" ++ file.name)
           (IA.check_existing md5hex file check_md5 fs)).1 = Except.error e →
       (IA.worker_download_file md5hex resp item file dest_dir check_md5 fs).1 =
         (item, file, some (Except.error e))) := by
  constructor
  · intro md5hex server st path e tf hd hout
    rw [CC.download_warc_fail md5hex server st path hd hout]
  · intro md5hex resp item file dest_dir check_md5 fs e hd hdf
    simp only [IA.worker_download_file]
    rw [if_neg (by simp [hd])]
    simp [hdf]

/-- Witness for C8: a server with no size headers (resumable mode) and a
non-ok response (simple mode); both errors surface as `Failed` results of
the worker. -/
theorem C8_worker_boundary_witness :
    (CC.download_warc CC.wmh CC.wServerNoSize CC.wStateEmpty "p").2.1 =
      CC.DownloadResult.downloadError "p"
        (CC.warc_loop CC.wServerNoSize CC.MAX_ATTEMPTS 0 [] [] none).2.1 0
        CC.CCErr.noContentSize ∧
    (IA.worker_download_file IA.wmh IA.wRespBad "i" IA.wFileH2 "d" false IA.wFsEmpty).1 =
      ("i", IA.wFileH2, some (Except.error "bad")) := by
  constructor
  · exact C8_worker_boundary.1 CC.wmh CC.wServerNoSize CC.wStateEmpty "p"
      CC.CCErr.noContentSize [] rfl rfl
  · exact C8_worker_boundary.2 IA.wmh IA.wRespBad "i" IA.wFileH2 "d" false IA.wFsEmpty
      "bad" rfl rfl

/-- Claim C10 (amended): `get_content_length` returns the total parsed from
a two-field `Content-Range` whose total field is not `"*"`; when that header
is absent, not two-field, or the total is `"*"`, it returns the parsed
`Content-Length`; and it raises exactly when the source it selects fails:
with a two-field `Content-Range` total other than `"*"`, exactly when that
total does not parse (`Content-Length` is not consulted); otherwise exactly
when `Content-Length` is absent or does not parse. -/
theorem C10_content_length_cases (r : CC.CCResponse) :
    (∀ (a b : String) (n : Int),
        CC.pySplit '/' (r.contentRange.getD "") = [a, b] → b ≠ "*" →
        CC.pyIntParse b = some n → CC.get_content_length r = Except.ok n) ∧
    ((∀ (a b : String), CC.pySplit '/' (r.contentRange.getD "") = [a, b] → b = "*") →
      ∀ (cl : String) (m : Int), r.contentLength = some cl →
        CC.pyIntParse cl = some m → CC.get_content_length r = Except.ok m) ∧
    ((∃ e, CC.get_content_length r = Except.error e) ↔
      ((∃ a b, CC.pySplit '/' (r.contentRange.getD "") = [a, b] ∧ b ≠ "*" ∧
          CC.pyIntParse b = none) ∨
       ((∀ (a b : String), CC.pySplit '/' (r.contentRange.getD "") = [a, b] → b = "*") ∧
        (r.contentLength = none ∨
          ∃ cl, r.contentLength = some cl ∧ CC.pyIntParse cl = none)))) := by
  rcases hsp : CC.pySplit '/' (r.contentRange.getD "") with _ | ⟨a, _ | ⟨b, _ | ⟨c, l⟩⟩⟩
  case nil =>
    have hgcl : CC.get_content_length r = CC.from_content_length r := by
      unfold CC.get_content_length
      rw [hsp]
    refine ⟨?_, ?_, ?_⟩
    · intro a b n h2 _ _
      simp at h2
    · intro _ cl m hcl hm
      rw [hgcl]
      exact CC.from_content_length_ok r cl m hcl hm
    · rw [hgcl, CC.from_content_length_error_iff]
      constructor
      · intro h
        exact Or.inr ⟨fun a b hab => by simp [hsp] at hab, h⟩
      · rintro (⟨a, b, hab, -, -⟩ | ⟨-, h⟩)
        · simp [hsp] at hab
        · exact h
  case cons.nil =>
    have hgcl : CC.get_content_length r = CC.from_content_length r := by
      unfold CC.get_content_length
      rw [hsp]
    refine ⟨?_, ?_, ?_⟩
    · intro a' b' n h2 _ _
      simp at h2
    · intro _ cl m hcl hm
      rw [hgcl]
      exact CC.from_content_length_ok r cl m hcl hm
    · rw [hgcl, CC.from_content_length_error_iff]
      constructor
      · intro h
        exact Or.inr ⟨fun a' b' hab => by simp at hab, h⟩
      · rintro (⟨a', b', hab, -, -⟩ | ⟨-, h⟩)
        · simp at hab
        · exact h
  case cons.cons.nil =>
    have hgcl : CC.get_content_length r =
        (if b ≠ "*" then CC.pyInt b else CC.from_content_length r) := by
      unfold CC.get_content_length
      rw [hsp]
    by_cases hb : b = "*"
    · rw [hb] at hgcl
      rw [if_neg (not_not_intro rfl)] at hgcl
      refine ⟨?_, ?_, ?_⟩
      · intro a' b' n h2 hne _
        rw [hb] at h2
        obtain ⟨-, hb'⟩ := List.cons.inj h2
        obtain ⟨hb'', -⟩ := List.cons.inj hb'
        exact absurd hb''.symm hne
      · intro _ cl m hcl hm
        rw [hgcl]
        exact CC.from_content_length_ok r cl m hcl hm
      · rw [hgcl, CC.from_content_length_error_iff]
        constructor
        · intro h
          refine Or.inr ⟨?_, h⟩
          intro a' b' hab
          rw [hb] at hab
          obtain ⟨-, hb'⟩ := List.cons.inj hab
          obtain ⟨hb'', -⟩ := List.cons.inj hb'
          exact hb''.symm
        · rintro (⟨a', b', hab, hne, -⟩ | ⟨-, h⟩)
          · rw [hb] at hab
            obtain ⟨-, hb'⟩ := List.cons.inj hab
            obtain ⟨hb'', -⟩ := List.cons.inj hb'
            exact absurd hb''.symm hne
          · exact h
    · rw [if_pos hb] at hgcl
      refine ⟨?_, ?_, ?_⟩
      · intro a' b' n h2 hne hn
        obtain ⟨-, hb'⟩ := List.cons.inj h2
        obtain ⟨hb'', -⟩ := List.cons.inj hb'
        rw [hgcl]
        unfold CC.pyInt
        rw [← hb''] at hn
        rw [hn]
      · intro hall cl m hcl hm
        exact absurd (hall a b rfl) hb
      · rw [hgcl]
        constructor
        · intro hex
          left
          refine ⟨a, b, rfl, hb, ?_⟩
          obtain ⟨e, he⟩ := hex
          unfold CC.pyInt at he
          rcases hp : CC.pyIntParse b with _ | n
          · rfl
          · rw [hp] at he
            simp at he
        · rintro (⟨a', b', hab, hne, hp⟩ | ⟨hall, -⟩)
          · obtain ⟨-, hb'⟩ := List.cons.inj hab
            obtain ⟨hb'', -⟩ := List.cons.inj hb'
            unfold CC.pyInt
            rw [← hb'' ] at hp
            rw [hp]
            exact ⟨CC.CCErr.invalidLiteral b, rfl⟩
          · exact absurd (hall a b rfl) hb
  case cons.cons.cons =>
    have hgcl : CC.get_content_length r = CC.from_content_length r := by
      unfold CC.get_content_length
      rw [hsp]
    refine ⟨?_, ?_, ?_⟩
    · intro a' b' n h2 _ _
      simp at h2
    · intro _ cl m hcl hm
      rw [hgcl]
      exact CC.from_content_length_ok r cl m hcl hm
    · rw [hgcl, CC.from_content_length_error_iff]
      constructor
      · intro h
        exact Or.inr ⟨fun a' b' hab => by simp at hab, h⟩
      · rintro (⟨a', b', hab, -, -⟩ | ⟨-, h⟩)
        · simp at hab
        · exact h

/-- Witness for C10: a well-formed `Content-Range` total, a `"*"` total
falling back to `Content-Length`, and a response with no size at all. -/
theorem C10_content_length_cases_witness :
    CC.get_content_length
      { contentRange := some "bytes 0-9/100", contentLength := none, body := [] } =
      Except.ok 100 ∧
    CC.get_content_length
      { contentRange := some "bytes 0-9/*", contentLength := some "7", body := [] } =
      Except.ok 7 ∧
    (∃ e, CC.get_content_length
      { contentRange := none, contentLength := none, body := [] } = Except.error e) := by
  refine ⟨?_, ?_, ?_⟩
  · exact (C10_content_length_cases _).1 "bytes 0-9" "100" 100 rfl (by decide) rfl
  · exact (C10_content_length_cases _).2.1
      (fun a b hab => by
        have : CC.pySplit '/' "bytes 0-9/*" = ["bytes 0-9", "*"] := rfl
        rw [show ((some "bytes 0-9/*").getD "") = "bytes 0-9/*" from rfl, this] at hab
        obtain ⟨-, hb'⟩ := List.cons.inj hab
        obtain ⟨hb'', -⟩ := List.cons.inj hb'
        exact hb''.symm)
      "7" 7 rfl rfl
  · exact (C10_content_length_cases _).2.2.mpr
      (Or.inr ⟨fun a b hab => by simp [CC.pySplit, CC.pySplitAux] at hab, Or.inl rfl⟩)

/-- Counterexample for C10: the claim says an error is raised if and only if
neither source yields a size; but with `Content-Range: x/y` (total `y`
unparseable) and a perfectly good `Content-Length: 5`, the code raises the
`int()` `ValueError` without ever consulting `Content-Length`. -/
theorem C10_counterexample_unparseable_total :
    CC.get_content_length
      { contentRange := some "x/y", contentLength := some "5", body := [] } =
      Except.error (CC.CCErr.invalidLiteral "y") ∧
    ({ contentRange := some "x/y", contentLength := some "5", body := [] } :
        CC.CCResponse).contentLength = some "5" ∧
    CC.pyIntParse "5" = some 5 := by
  exact ⟨rfl, rfl, rfl⟩

/-- Claim C2 (amended): the run is aborted iff some contiguous window of the
consumed results contains more than 100 `Failed` results and no `Completed`
result — `AlreadyPresent` results inside the window do not break it (they
neither reset nor increment the counter), which is weaker than the claim's
"suffix consisting only of Failed results".  The 101st consecutive failure
aborts; 100 consecutive failures alone do not. -/
theorem C2_abort_iff_window :
    (∀ rs : List IA.TaskResult,
      ((IA.ia_run rs).aborted = true ↔ IA.abortWindow rs)) ∧
    (∀ r : IA.TaskResult, IA.retErr r.2.2 = true →
      (IA.ia_run (List.replicate 101 r)).aborted = true ∧
      (IA.ia_run (List.replicate 100 r)).aborted = false) := by
  have hiff : ∀ rs : List IA.TaskResult,
      ((IA.ia_run rs).aborted = true ↔ IA.abortWindow rs) := by
    intro rs
    rw [IA.ia_run, IA.ia_loop_abort_iff rs 0 0 [] (by omega), IA.abortWindow_iff]
  refine ⟨hiff, ?_⟩
  intro r hr
  have herrc : ∀ n : Nat, IA.errCount (List.replicate n r) = n := by
    intro n
    induction n with
    | zero => rfl
    | succ k ih =>
        rw [List.replicate_succ, IA.errCount_cons, ih, hr]
        simp
        omega
  constructor
  · rw [hiff]
    refine ⟨[], List.replicate 101 r, [], by simp, ?_, ?_⟩
    · rw [List.all_eq_true]
      intro x hx
      rw [List.eq_of_mem_replicate hx]
      simp [IA.nonOk, IA.retOk_eq_false_of_retErr hr]
    · rw [herrc]
      omega
  · have hno : ¬ IA.abortWindow (List.replicate 100 r) := by
      rintro ⟨p, s, t, heq, -, hcnt⟩
      have hle : IA.errCount s ≤ s.length := List.countP_le_length _
      have hlen : p.length + (s.length + t.length) = 100 := by
        have := congrArg List.length heq
        simpa using this.symm
      omega
    cases habs : (IA.ia_run (List.replicate 100 r)).aborted with
    | false => rfl
    | true => exact absurd ((hiff _).mp habs) hno

/-- Counterexample for C2: 50 failures, one `AlreadyPresent` (skipped)
result, then 51 more failures.  The code aborts (the counter reaches 101),
yet no window of more than 100 consecutive results consists only of
`Failed` results, so the claimed "if and only if" is false on this input. -/
theorem C2_counterexample_skip_interleaved :
    (IA.ia_run IA.mixedResults).aborted = true ∧
    ¬ IA.specConsecFailWindow IA.mixedResults := by
  constructor
  · decide
  · rintro ⟨p, s, t, heq, hlen, hall⟩
    have h102 : p.length + (s.length + t.length) = 102 := by
      have := congrArg List.length heq
      simpa [IA.mixedResults] using this.symm
    have hdrop : IA.mixedResults.drop p.length = s ++ t := by
      rw [heq]
      exact List.drop_left p (s ++ t)
    have hs : s = (IA.mixedResults.drop p.length).take s.length := by
      rw [hdrop]
      exact (List.take_left s t).symm
    have hcases : (p.length = 0 ∧ s.length = 101) ∨ (p.length = 0 ∧ s.length = 102) ∨
        (p.length = 1 ∧ s.length = 101) := by omega
    rcases hcases with ⟨hp0, hs0⟩ | ⟨hp0, hs0⟩ | ⟨hp0, hs0⟩ <;>
      · rw [hp0, hs0] at hs
        rw [hs] at hall
        exact absurd hall (by decide)

/-- Claim C3 (amended): per consumed result, a `Completed` retval resets the
`consecutive_errors` counter to 0 and a `Failed` retval increments it, as
claimed; but an `AlreadyPresent` retval (`None`) is skipped by `continue`
and leaves the counter unchanged — it does not reset it to 0. -/
theorem C3_counter_updates :
    (∀ (c : Nat) (d : IA.Download), IA.consec_step c (some (Except.ok d)) = 0) ∧
    (∀ (c : Nat) (e : String), IA.consec_step c (some (Except.error e)) = c + 1) ∧
    (∀ c : Nat, IA.consec_step c none = c) ∧
    (∀ (c total : Nat) (rows : List IA.Row) (i : String) (f : IA.File)
       (rest : List IA.TaskResult),
       IA.ia_loop c total rows ((i, f, none) :: rest) = IA.ia_loop c total rows rest) :=
  ⟨fun _ _ => rfl, fun _ _ => rfl, fun _ => rfl, fun _ _ _ _ _ _ => rfl⟩

/-- Counterexample for C3: after a failure followed by an `AlreadyPresent`
result, the counter is 1, not the 0 the claim requires after every
`AlreadyPresent`. -/
theorem C3_counterexample_skip_keeps_counter :
    (IA.ia_run [IA.sampleErr, IA.sampleSkip]).consecutive_errors = 1 ∧
    (IA.ia_run [IA.sampleErr, IA.sampleSkip]).consecutive_errors ≠ 0 := by
  constructor <;> decide

/-- Claim C4 (amended): in a non-aborted run, each `Completed` or `Failed`
result yields exactly one output row, but an `AlreadyPresent` result yields
none — the row count equals the number of non-skipped results
(`ia-download.py`) and the number of non-`FileExists` results
(`cc-download.py`), not the number of all results. -/
theorem C4_rows_reported :
    (∀ rs : List IA.TaskResult, (IA.ia_run rs).aborted = false →
       (IA.ia_run rs).rows.length = rs.countP (fun r => r.2.2.isSome)) ∧
    (∀ results : List CC.DownloadResult,
       (CC.cc_main results).1.length = results.countP (fun r => (CC.cc_row r).isSome)) := by
  constructor
  · intro rs h
    have hrun := IA.ia_loop_not_aborted rs 0 0 [] h
    simpa [IA.ia_run] using hrun.1
  · intro results
    exact length_filterMap_eq_countP CC.cc_row results

/-- Witness for C4: one skipped and one completed result (no abort), and the
empty cc run. -/
theorem C4_rows_reported_witness :
    (IA.ia_run [IA.sampleSkip, IA.sampleOk]).rows.length =
      [IA.sampleSkip, IA.sampleOk].countP (fun r => r.2.2.isSome) ∧
    (CC.cc_main []).1.length = ([] : List CC.DownloadResult).countP
      (fun r => (CC.cc_row r).isSome) := by
  exact ⟨C4_rows_reported.1 [IA.sampleSkip, IA.sampleOk] (by decide), C4_rows_reported.2 []⟩

/-- Counterexample for C4: a single `AlreadyPresent` task yields zero output
rows in both scripts, not the one row per task the claim requires. -/
theorem C4_counterexample_already_present_row :
    (IA.ia_run [IA.sampleSkip]).rows.length = 0 ∧
    (CC.cc_main [CC.DownloadResult.fileExists "p"]).1.length = 0 ∧
    (0 : Nat) ≠ 1 := by
  refine ⟨by decide, rfl, by decide⟩

/-- Claim C9 (amended): in `ia-download.py` a non-aborted run exits with
code 0 exactly when no task failed and with code 1 when at least one did;
but `cc-download.py` never sets an exit code at all — it always exits 0,
failures or not. -/
theorem C9_exit_convention :
    (∀ rs : List IA.TaskResult, (IA.ia_run rs).aborted = false →
       ((IA.ia_exit rs = some 0 ↔ IA.errCount rs = 0) ∧
        (0 < IA.errCount rs → IA.ia_exit rs = some 1))) ∧
    (∀ results : List CC.DownloadResult, (CC.cc_main results).2 = 0) := by
  constructor
  · intro rs h
    have htot := (IA.ia_loop_not_aborted rs 0 0 [] h).2
    have htot' : (IA.ia_run rs).total_errors = IA.errCount rs := by
      simpa [IA.ia_run] using htot
    have hex : IA.ia_exit rs = some (if 0 < IA.errCount rs then 1 else 0) := by
      rw [IA.ia_exit]
      simp only [h, Bool.false_eq_true, if_false, htot']
    constructor
    · constructor
      · intro h0
        by_contra hne
        have hpos : 0 < IA.errCount rs := Nat.pos_of_ne_zero hne
        rw [hex, if_pos hpos] at h0
        simp at h0
      · intro h0
        rw [hex, h0]
        simp
    · intro hpos
      rw [hex, if_pos hpos]
  · intro results
    rfl

/-- Witness for C9: a run with a single completed task exits 0, and the
empty cc run exits 0. -/
theorem C9_exit_convention_witness :
    IA.ia_exit [IA.sampleOk] = some 0 ∧ (CC.cc_main []).2 = 0 := by
  refine ⟨?_, C9_exit_convention.2 []⟩
  exact (C9_exit_convention.1 [IA.sampleOk] (by decide)).1.mpr (by decide)

/-- Counterexample for C9: a `cc-download.py` run with one `Failed` task
still exits 0, contradicting the claim that at least one failure makes the
exit code non-zero. -/
theorem C9_counterexample_cc_exit_zero :
    (CC.cc_main [CC.DownloadResult.downloadError "p" none 0 CC.CCErr.noContentSize]).2 = 0 ∧
    ([CC.DownloadResult.downloadError "p" none 0 CC.CCErr.noContentSize].countP
      (fun r => match r with
        | CC.DownloadResult.downloadError _ _ _ _ => true
        | _ => false)) = 1 := by
  exact ⟨rfl, rfl⟩

/-- Witness for C2: a concrete failure result instantiating the 101st/100th
consecutive-failure scenario of `C2_abort_iff_window`. -/
theorem C2_abort_iff_window_witness :
    (IA.ia_run (List.replicate 101 IA.sampleErr)).aborted = true ∧
    (IA.ia_run (List.replicate 100 IA.sampleErr)).aborted = false := by
  exact C2_abort_iff_window.2 IA.sampleErr rfl
